import Mathlib

/-!
Verification development for the acts-downloader program
(source file: acts_downloader.py).

The Python source is shallowly embedded below.  Pure helpers
(_safe_dirname, _filename_from_cd, _looks_like_pdf, os.path.join,
urllib.parse pieces) become executable Lean functions on String /
List Char / List Nat.  Effectful routines (download_file, the page
scrapers, get_acts) are embedded in state-passing style: the HTTP
collaborator is a function from a URL to an optional response (none
models a transport error, i.e. a raised requests.RequestException,
which covers timeouts, connection failures and the non-2xx statuses
raised by raise_for_status), the filesystem is a predicate on paths,
and the result records the path returned together with the file
writes performed and the URLs fetched, so that side effects are
observable in theorem statements.  Bodies of HTTP responses are
byte lists (List Nat); parsed HTML pages are a small DOM tree type,
since the HTML parser (BeautifulSoup) is an external collaborator.
-/

namespace ActsDl

/-! ## Generic string and list helpers (models of Python primitives) -/

/-- Membership-based character-class test used by the strip models. -/
def memB (c : Char) (set : List Char) : Bool := set.any (fun d => d == c)

/-- ASCII whitespace, the character class stripped by Python str.strip()
and matched by the regex class backslash-s (restricted to ASCII, which is
all the program ever strips). -/
def wsChars : List Char := [' ', '\t', '\n', '\r', '\x0b', '\x0c']

def isWsChar (c : Char) : Bool := memB c wsChars

/-- Model of Python str.lstrip with an explicit character set. -/
def lstripSet (set : List Char) (cs : List Char) : List Char :=
  cs.dropWhile (fun c => memB c set)

/-- Model of Python str.rstrip with an explicit character set. -/
def rstripSet (set : List Char) (cs : List Char) : List Char :=
  (cs.reverse.dropWhile (fun c => memB c set)).reverse

/-- Model of Python str.strip with an explicit character set. -/
def stripSet (set : List Char) (cs : List Char) : List Char :=
  rstripSet set (lstripSet set cs)

/-- Model of Python str.strip() (no argument: whitespace). -/
def pyStrip (cs : List Char) : List Char := stripSet wsChars cs

/-- Model of Python str.strip() on String. -/
def pyStripStr (s : String) : String := String.mk (pyStrip s.data)

/-- ASCII lower-casing of one character; model of Python str.lower()
restricted to ASCII, which is all the program lower-cases (host names,
header values). -/
def lowerChar (c : Char) : Char :=
  if 'A' ≤ c && c ≤ 'Z' then Char.ofNat (c.toNat + 32) else c

/-- ASCII lower-casing of a string. -/
def lowerStr (s : String) : String := String.mk (s.data.map lowerChar)

/-- Boolean list-infix test: does needle occur contiguously in hay?
Model of the Python substring operator in. -/
def isPrefixB {α : Type} [BEq α] : List α → List α → Bool
  | [], _ => true
  | _ :: _, [] => false
  | a :: as, b :: bs => a == b && isPrefixB as bs

def containsL {α : Type} [BEq α] : List α → List α → Bool
  | n, [] => isPrefixB n ([] : List α)
  | n, h :: t => isPrefixB n (h :: t) || containsL n t

/-- Model of the Python substring test: containsS hay needle is
(needle in hay). -/
def containsS (hay needle : String) : Bool := containsL needle.data hay.data

/-- Python truthiness of an optional string: None and the empty string
are falsy. -/
def truthyS : Option String → Bool
  | none => false
  | some s => s ≠ ""

/-- Model of Python str.startswith. -/
def startsWithS (s pre : String) : Bool := isPrefixB pre.data s.data

/-- Model of Python str.endswith. -/
def endsWithS (s suf : String) : Bool := isPrefixB suf.data.reverse s.data.reverse

/-- Model of the Python expression (a or b) on optional strings
(empty strings are falsy). -/
def pyOrOpt (a b : Option String) : Option String :=
  match a with
  | some s => if s = "" then b else some s
  | none => b

/-- Model of the Python expression (a or b) where b is a plain string:
used for fallback chains such as cd-filename or basename or default. -/
def pyOrS (a : Option String) (b : String) : String :=
  match a with
  | some s => if s = "" then b else s
  | none => b

/-! ## _safe_dirname -/

/-- The characters the regex class in _safe_dirname replaces:
angle brackets, colon, double quote, slash, backslash, pipe,
question mark, star. -/
def badChars : List Char := ['<', '>', ':', '"', '/', '\\', '|', '?', '*']

def isBad (c : Char) : Bool := memB c badChars

/-- Model of re.sub applied to the class of disallowed characters with
a + quantifier: each maximal run of disallowed characters becomes a
single underscore.  The Boolean argument records whether the previous
character was part of such a run. -/
def subBadAux : Bool → List Char → List Char
  | _, [] => []
  | prevBad, c :: rest =>
    if isBad c then
      if prevBad then subBadAux true rest
      else '_' :: subBadAux true rest
    else c :: subBadAux false rest

def subBad (cs : List Char) : List Char := subBadAux false cs

/-- The intermediate value of _safe_dirname before truncation:
re.sub(...).strip() followed by .strip(" ."). -/
def safeStage (name : String) : List Char :=
  stripSet [' ', '.'] (pyStrip (subBad name.data))

/-- Embedding of _safe_dirname: sanitize, strip, truncate to 120
characters, and fall back to "untitled" when empty. -/
def safeDirname (name : String) : String :=
  let t := (safeStage name).take 120
  if t.isEmpty then "untitled" else String.mk t

/-! ## URL and path helpers
Models of the external collaborators urllib.parse.urlparse,
urllib.parse.urljoin, os.path.join and os.path.basename, restricted to
the shapes the program uses: absolute http(s) URLs written
scheme://netloc/path?query and POSIX path joining. -/

/-- Split a list at the first occurrence of sep, returning the pieces
before and after it. -/
def splitOnFirst {α : Type} [BEq α] (sep : List α) : List α → Option (List α × List α)
  | [] => if isPrefixB sep ([] : List α) then some ([], []) else none
  | h :: t =>
    if isPrefixB sep (h :: t) then some ([], (h :: t).drop sep.length)
    else match splitOnFirst sep t with
      | some (before, after) => some (h :: before, after)
      | none => none

/-- Scheme of a URL: the part before "://" (empty when absent). -/
def urlScheme (url : String) : String :=
  match splitOnFirst "://".data url.data with
  | some (before, _) => String.mk before
  | none => ""

/-- Model of urlparse(url).netloc: the authority between "://" and the
next slash, question mark or hash (empty when the URL has no "//"). -/
def urlNetloc (url : String) : String :=
  match splitOnFirst "://".data url.data with
  | some (_, rest) => String.mk (rest.takeWhile (fun c => ¬ memB c ['/', '?', '#']))
  | none => ""

/-- Model of urlparse(url).path for the same restricted URL shape. -/
def urlPath (url : String) : String :=
  match splitOnFirst "://".data url.data with
  | some (_, rest) =>
    String.mk ((rest.dropWhile (fun c => ¬ memB c ['/', '?', '#'])).takeWhile
      (fun c => ¬ memB c ['?', '#']))
  | none => String.mk (url.data.takeWhile (fun c => ¬ memB c ['?', '#']))

/-- Model of os.path.basename (POSIX): the part after the last slash. -/
def basenameP (p : String) : String :=
  String.mk ((p.data.reverse.takeWhile (fun c => c ≠ '/')).reverse)

/-- The enclosing directory part of a URL path, up to and including the
last slash; used by the relative case of urljoin. -/
def dirPart (p : String) : String :=
  String.mk ((p.data.reverse.dropWhile (fun c => c ≠ '/')).reverse)

/-- Model of urllib.parse.urljoin restricted to the reference shapes the
program produces: absolute URLs, scheme-relative, host-absolute paths and
plain relative paths. -/
def urljoin (base rel : String) : String :=
  if rel = "" then base
  else if containsS rel "://" then rel
  else if startsWithS rel "//" then urlScheme base ++ ":" ++ rel
  else if startsWithS rel "/" then urlScheme base ++ "://" ++ urlNetloc base ++ rel
  else urlScheme base ++ "://" ++ urlNetloc base ++ dirPart (urlPath base) ++ rel

/-- Model of os.path.join on two components (POSIX rules: an absolute
second component discards the first). -/
def osJoin (a b : String) : String :=
  if startsWithS b "/" then b
  else if a = "" then b
  else if endsWithS a "/" then a ++ b
  else a ++ "/" ++ b

/-- Model of url.rstrip("/"). -/
def rstripSlash (s : String) : String := String.mk (rstripSet ['/'] s.data)

/-! ## _filename_from_cd
The three re.search calls are embedded as dedicated matchers.  Each of
the three patterns is deterministic once its start position is fixed,
because every quantified class excludes the delimiter that follows it;
the only backtracking the Python engine can perform is between a greedy
whitespace run and a following one-or-more class, which the matchers
reproduce explicitly.  re.search semantics (leftmost match) is the scan
over suffixes in searchAt. -/

/-- The apostrophe character, written by code point. -/
def squote : Char := Char.ofNat 39

/-- Case-insensitive match of a literal at the head of the input,
returning the rest; models the re.I flag on the literal part of the
patterns. -/
def matchLitCI : List Char → List Char → Option (List Char)
  | [], rest => some rest
  | _ :: _, [] => none
  | l :: ls, c :: cs => if lowerChar l == lowerChar c then matchLitCI ls cs else none

/-- Expect one given character at the head. -/
def expectChar (ch : Char) : List Char → Option (List Char)
  | [] => none
  | c :: cs => if c == ch then some cs else none

/-- Matcher for the extended pattern
filename star, optional spaces, equals, optional spaces, a nonempty
quote-free run, a quote, a quote-free run, a quote, then the captured
nonempty semicolon-free run. -/
def matchExt (s : List Char) : Option (List Char) := do
  let r1 ← matchLitCI "filename*".data s
  let r2 ← expectChar '=' (r1.dropWhile isWsChar)
  let ws := r2.takeWhile isWsChar
  let r3 := r2.drop ws.length
  let t1 := r3.takeWhile (fun c => c ≠ squote)
  let r4 ←
    if t1.isEmpty then
      if ws.isEmpty then none else expectChar squote r3
    else expectChar squote (r3.drop t1.length)
  let t2 := r4.takeWhile (fun c => c ≠ squote)
  let r5 ← expectChar squote (r4.drop t2.length)
  let v := r5.takeWhile (fun c => c ≠ ';')
  if v.isEmpty then none else some v

/-- Matcher for the quoted pattern: filename, optional spaces, equals,
optional spaces, a double quote, the captured nonempty quote-free run,
a closing double quote. -/
def matchQuoted (s : List Char) : Option (List Char) := do
  let r1 ← matchLitCI "filename".data s
  let r2 ← expectChar '=' (r1.dropWhile isWsChar)
  let r3 ← expectChar '"' (r2.dropWhile isWsChar)
  let v := r3.takeWhile (fun c => c ≠ '"')
  let _ ← expectChar '"' (r3.drop v.length)
  if v.isEmpty then none else some v

/-- Matcher for the bare pattern: filename, optional spaces, equals,
then the captured nonempty semicolon-free run (when the run after the
whitespace is empty the greedy whitespace gives back one character). -/
def matchBare (s : List Char) : Option (List Char) := do
  let r1 ← matchLitCI "filename".data s
  let r2 ← expectChar '=' (r1.dropWhile isWsChar)
  let ws := r2.takeWhile isWsChar
  let v := (r2.drop ws.length).takeWhile (fun c => c ≠ ';')
  if v.isEmpty then
    if ws.isEmpty then none else some [ws.getLastD ' ']
  else some v

/-- Model of re.search: try the matcher at every start position, left to
right, and return the first capture. -/
def searchAt (m : List Char → Option (List Char)) : List Char → Option (List Char)
  | [] => m []
  | c :: cs =>
    match m (c :: cs) with
    | some v => some v
    | none => searchAt m cs

/-- Embedding of _filename_from_cd.  The input is the optional
Content-Disposition header value; an empty string is falsy in the
Python guard and yields None.  The bare capture is stripped as in the
source. -/
def filenameFromCd (cd : Option String) : Option String :=
  match cd with
  | none => none
  | some s =>
    if s = "" then none
    else
      match searchAt matchExt s.data with
      | some v => some (String.mk v)
      | none =>
        match searchAt matchQuoted s.data with
        | some v => some (String.mk v)
        | none =>
          match searchAt matchBare s.data with
          | some v => some (pyStripStr (String.mk v))
          | none => none

/-! ## _looks_like_pdf -/

/-- The four signature bytes of "%PDF". -/
def pdfSig : List Nat := [0x25, 0x50, 0x44, 0x46]

/-- ASCII whitespace bytes, the set stripped by bytes.lstrip(). -/
def isWsByte (b : Nat) : Bool := b == 9 || b == 10 || b == 11 || b == 12 || b == 13 || b == 32

/-- Embedding of _looks_like_pdf.  The body is a byte list; the header
argument is the optional Content-Type value (the source reads
headers.get("Content-Type", "") from a case-insensitive header map, so
only this one value matters). -/
def looksLikePdf (content : List Nat) (contentType : Option String) : Bool :=
  if content.take 4 == pdfSig then true
  else if (content.dropWhile isWsByte).take 4 == pdfSig then true
  else containsS (lowerStr (contentType.getD "")) "pdf"

/-! ## download_file
The HTTP collaborator is a function net from a URL to an optional
Response; none models a raised requests.RequestException (timeout,
connection failure, or the non-2xx statuses raised by
raise_for_status inside _download_once).  Responses are keyed by URL
only: the request headers the source builds (User-Agent, Accept,
optional Referer) are fixed for the whole call, so they are part of the
opaque transport.  The filesystem is the predicate fs of existing
paths.  The result extends the path the source returns with the list
of file writes performed and the list of URLs fetched, in order, so
that side effects are stated in theorems.  A none result models the
primary fetch raising, which download_file does not catch. -/

/-- An HTTP response as the downloader observes it: the
Content-Disposition header, the Content-Type header and the body bytes
accumulated by _download_once. -/
structure Response where
  contentDisposition : Option String
  contentType : Option String
  body : List Nat
deriving DecidableEq, Repr

/-- Observable outcome of download_file: the returned path, the file
writes performed (path and bytes, in order) and the URLs fetched. -/
structure DlResult where
  path : String
  writes : List (String × List Nat)
  fetched : List String
deriving DecidableEq, Repr

/-- Outcome of the retry loop when some alternate passed the sniff. -/
structure AltOut where
  path : String
  writes : List (String × List Nat)
deriving DecidableEq, Repr

/-- The destination directory of download_file: the folder joined with
the sanitized title and subtitle when they are truthy. -/
def destDir (folder : String) (title subtitle : Option String) : String :=
  let d1 := match title with
    | some t => if t = "" then folder else osJoin folder (safeDirname t)
    | none => folder
  match subtitle with
  | some st => if st = "" then d1 else osJoin d1 (safeDirname st)
  | none => d1

/-- The primary filename: Content-Disposition filename, or the basename
of the URL path, or the literal fallback, chained with Python
truthiness. -/
def primaryFilename (cd : Option String) (url : String) : String :=
  pyOrS (filenameFromCd cd) (pyOrS (some (basenameP (urlPath url))) "pobrany_plik")

/-- The retry condition of download_file: the sniff failed, the netloc
ends with "gov.pl" (case-sensitive, as in the source) and the URL path
contains "/attachment/". -/
def retryCond (resp : Response) (url : String) : Bool :=
  !looksLikePdf resp.body resp.contentType
    && endsWithS (urlNetloc url) "gov.pl"
    && containsS (urlPath url) "/attachment/"

/-- First alternate URL form: trailing slashes stripped and "/download"
appended. -/
def altA (url : String) : String := rstripSlash url ++ "/download"

/-- Second alternate URL form: a download=1 query parameter, appended
with an ampersand when the URL already contains a question mark and
with a question mark otherwise. -/
def altB (url : String) : String :=
  url ++ (if containsS url "?" then "&download=1" else "?download=1")

/-- The two alternate URL forms of the retry loop, in order. -/
def altCandidates (url : String) : List String := [altA url, altB url]

/-- Embedding of the retry loop of download_file.  Returns the fetched
alternates in order together with the outcome of the first alternate
whose sniff succeeded (none when the candidates are exhausted).  A
transport error on an alternate is swallowed and the loop advances; a
fetched alternate that fails the sniff is likewise skipped. -/
def tryAlts (net : String → Option Response) (fs : String → Bool)
    (baseDir filename : String) : List String → List String × Option AltOut
  | [] => ([], none)
  | alt :: rest =>
    match net alt with
    | none =>
      let p := tryAlts net fs baseDir filename rest
      (alt :: p.1, p.2)
    | some r2 =>
      if looksLikePdf r2.body r2.contentType then
        let dp2 := osJoin baseDir (pyOrS (filenameFromCd r2.contentDisposition) filename)
        if fs dp2 then ([alt], some ⟨dp2, []⟩)
        else ([alt], some ⟨dp2, [(dp2, r2.body)]⟩)
      else
        let p := tryAlts net fs baseDir filename rest
        (alt :: p.1, p.2)

/-- The primary destination path of download_file: the destination
directory joined with the primary filename. -/
def primaryDest (url folder : String) (title subtitle : Option String)
    (resp : Response) : String :=
  osJoin (destDir folder title subtitle) (primaryFilename resp.contentDisposition url)

/-- The part of download_file after the primary fetch succeeded:
return the destination path when it already exists, otherwise run the
retry loop when the retry condition holds, and finally write the
originally fetched body to the primary destination path when no
alternate succeeded. -/
def downloadBody (url folder : String) (title subtitle : Option String)
    (net : String → Option Response) (fs : String → Bool) (resp : Response) : Option DlResult :=
  if fs (primaryDest url folder title subtitle resp) then
    some ⟨primaryDest url folder title subtitle resp, [], [url]⟩
  else if retryCond resp url then
    match tryAlts net fs (destDir folder title subtitle)
        (primaryFilename resp.contentDisposition url) (altCandidates url) with
    | (f, some o) => some ⟨o.path, o.writes, url :: f⟩
    | (f, none) =>
      some ⟨primaryDest url folder title subtitle resp,
        [(primaryDest url folder title subtitle resp, resp.body)], url :: f⟩
  else
    some ⟨primaryDest url folder title subtitle resp,
      [(primaryDest url folder title subtitle resp, resp.body)], [url]⟩

/-- Embedding of download_file.  Mirrors the source order: fetch the
URL (propagating a transport error), then derive the filename and
destination path and proceed as in downloadBody. -/
def downloadFile (url folder : String) (title subtitle : Option String)
    (net : String → Option Response) (fs : String → Bool) : Option DlResult :=
  match net url with
  | none => none
  | some resp => downloadBody url folder title subtitle net fs resp

/-- Apply a list of file writes to a filesystem predicate: the paths
written now exist. -/
def applyWrites (fs : String → Bool) (ws : List (String × List Nat)) : String → Bool :=
  fun p => fs p || ws.any (fun w => w.1 == p)

/-! ## Parsed HTML trees
A small DOM model for the BeautifulSoup collaborator: element nodes
carry a tag name, an attribute list and children; text nodes carry a
string.  A parsed page ("soup") is represented by a synthetic document
node whose children are the top-level elements, matching the
BeautifulSoup document object; CSS select searches the strict
descendants of the node it is called on, which makes document-level
select and element-level select_one the same traversal. -/

inductive Node where
  | elem (tag : String) (attrs : List (String × String)) (children : List Node)
  | text (s : String)
deriving Repr

/-- Tag name of a node; a text node has none (BeautifulSoup returns
None for NavigableString.name, which fails every name comparison). -/
def Node.tagName : Node → String
  | .elem t _ _ => t
  | .text _ => ""

/-- Model of Tag.get: look up an attribute, None when absent. -/
def Node.attr : Node → String → Option String
  | .elem _ attrs _, k => (attrs.find? (fun p => p.1 == k)).map (fun p => p.2)
  | .text _, _ => none

/-- Split a character list into maximal runs separated by characters
satisfying the predicate; model of whitespace tokenization.  The first
argument accumulates the current run in reverse. -/
def tokensAux (p : Char → Bool) (cur : List Char) : List Char → List (List Char)
  | [] => if cur.isEmpty then [] else [cur.reverse]
  | c :: cs =>
    if p c then
      if cur.isEmpty then tokensAux p [] cs
      else cur.reverse :: tokensAux p [] cs
    else tokensAux p (c :: cur) cs

/-- The space-separated class list of a node, the multi-valued class
attribute of the HTML parser. -/
def Node.classes (n : Node) : List String :=
  (tokensAux isWsChar [] ((n.attr "class").getD "").data).map String.mk

def Node.hasClass (n : Node) (c : String) : Bool := n.classes.any (fun d => d == c)

mutual
/-- All text-node strings below a node, in document order. -/
def nodeTexts : Node → List String
  | .text s => [s]
  | .elem _ _ cs => nodesTexts cs
def nodesTexts : List Node → List String
  | [] => []
  | n :: ns => nodeTexts n ++ nodesTexts ns
end

/-- Model of get_text(strip=True): every text fragment stripped, then
concatenated. -/
def getTextStrip (n : Node) : String :=
  String.join ((nodeTexts n).map pyStripStr)

mutual
/-- Preorder search of one node (itself and its descendants) for the
first element with the given tag. -/
def findTagNode (t : String) : Node → Option Node
  | .text _ => none
  | .elem tg attrs ccs =>
    if tg == t then some (Node.elem tg attrs ccs)
    else findFirstTag t ccs
/-- Preorder search of a list of nodes for the first element with the
given tag; model of Tag.find(name) over the descendants. -/
def findFirstTag (t : String) : List Node → Option Node
  | [] => none
  | c :: cs =>
    match findTagNode t c with
    | some r => some r
    | none => findFirstTag t cs
end

/-- Model of element.find(name): search the strict descendants. -/
def Node.findTag (n : Node) (t : String) : Option Node :=
  match n with
  | .elem _ _ cs => findFirstTag t cs
  | .text _ => none

mutual
/-- Collect, in document order, every element below the given ancestors
satisfying the predicate, which also receives the ancestor chain
(nearest ancestor first); the traversal behind soup.select. -/
def selectNode (p : List Node → Node → Bool) (ancs : List Node) : Node → List (Node × List Node)
  | .text _ => []
  | .elem t attrs cs =>
    let n := Node.elem t attrs cs
    (if p ancs n then [(n, ancs)] else []) ++ selectNodes p (n :: ancs) cs
def selectNodes (p : List Node → Node → Bool) (ancs : List Node) : List Node → List (Node × List Node)
  | [] => []
  | c :: cs => selectNode p ancs c ++ selectNodes p ancs cs
end

/-- CSS select on the strict descendants of a node. -/
def selectDesc (p : List Node → Node → Bool) (n : Node) : List (Node × List Node) :=
  match n with
  | .elem _ _ cs => selectNodes p [n] cs
  | .text _ => []

/-- Does some ancestor chain (nearest-first) contain, inner to outer,
elements matching the given predicates in order?  This is the
descendant combinator of the CSS selectors the source uses. -/
def chainUp : List (Node → Bool) → List Node → Bool
  | [], _ => true
  | _ :: _, [] => false
  | s :: ss, a :: rest => (s a && chainUp ss rest) || chainUp (s :: ss) rest

def tagIs (t : String) : Node → Bool := fun n => n.tagName == t
def classIs (c : String) : Node → Bool := fun n => n.hasClass c

/-- Attribute value of href as a string, empty when absent; used by the
attribute selectors. -/
def hrefVal (n : Node) : Option String := n.attr "href"

def hrefEndsWith (suf : String) (n : Node) : Bool :=
  match hrefVal n with
  | some h => endsWithS h suf
  | none => false

def hrefStartsWith (pre : String) (n : Node) : Bool :=
  match hrefVal n with
  | some h => startsWithS h pre
  | none => false

def hrefContains (sub : String) (n : Node) : Bool :=
  match hrefVal n with
  | some h => containsS h sub
  | none => false

/-! ## find_articles and find_acts -/

/-- Embedding of find_articles: on a legislacja.rcl.gov.pl host, the
selector li .cbp_tmlabel (elements of class cbp_tmlabel having an li
ancestor); otherwise the empty list. -/
def findArticles (url : String) (soup : Node) : List Node :=
  let host := lowerStr (urlNetloc url)
  if containsS host "legislacja.rcl.gov.pl" then
    (selectDesc (fun ancs n => classIs "cbp_tmlabel" n && chainUp [tagIs "li"] ancs) soup).map
      (fun p => p.1)
  else []

/-- The selector group of the DZIENNIK profile:
td p a[href ending .pdf], or a[href starting /DU/ and ending .pdf], or
a[href containing /DU/ and ending .pdf]. -/
def dzSel (ancs : List Node) (n : Node) : Bool :=
  tagIs "a" n &&
    ((hrefEndsWith ".pdf" n && chainUp [tagIs "p", tagIs "td"] ancs)
      || (hrefStartsWith "/DU/" n && hrefEndsWith ".pdf" n)
      || (hrefContains "/DU/" n && hrefEndsWith ".pdf" n))

/-- The last segment of an href, after the final slash; model of
href.rsplit("/", 1)[-1]. -/
def lastSegment (href : String) : String := basenameP href

/-- Label recovery for a DZIENNIK anchor lacking visible text, in the
source order: the text of a bold element found inside the enclosing
paragraph when nonempty, else the title-or-alt of an image inside the
anchor when truthy, else the last segment of the href. -/
def boldLabel (ancs : List Node) : Option String :=
  match ancs.find? (fun x => x.tagName == "p") with
  | some p =>
    match p.findTag "b" with
    | some b => if getTextStrip b = "" then none else some (getTextStrip b)
    | none => none
  | none => none

def imgLabel (a : Node) : Option String :=
  match a.findTag "img" with
  | some img => pyOrOpt (img.attr "title") (img.attr "alt")
  | none => none

def deriveLabel (a : Node) (ancs : List Node) (href : String) : String :=
  let l1 := boldLabel ancs
  let l2 := if truthyS l1 then l1 else imgLabel a
  if truthyS l2 then l2.getD "" else lastSegment href

/-- Appending a synthetic text child to an anchor; model of
a.append(NavigableString(" " + label)).  The source mutates the parse
tree in place and then collects the mutated anchors; only the returned
anchors are consumed downstream, so the pure transform is
observationally the same. -/
def appendLabel (a : Node) (label : String) : Node :=
  match a with
  | .elem t attrs cs => .elem t attrs (cs ++ [.text (" " ++ label)])
  | .text s => .text s

/-- The fix-up loop of the DZIENNIK branch of find_acts: drop anchors
with a falsy href, and append a recovered label to anchors without
visible text. -/
def dzFix : List (Node × List Node) → List Node
  | [] => []
  | (a, ancs) :: rest =>
    match hrefVal a with
    | none => dzFix rest
    | some href =>
      if href = "" then dzFix rest
      else if getTextStrip a = "" then
        appendLabel a (deriveLabel a ancs href) :: dzFix rest
      else a :: dzFix rest

/-- The three FINANSE selector attempts, in order. -/
def finSel1 (ancs : List Node) (n : Node) : Bool :=
  tagIs "a" n && classIs "file-download" n && (hrefVal n).isSome
    && chainUp [fun m => tagIs "article" m && (m.attr "id" == some "main-content")] ancs

def finSel2 (ancs : List Node) (n : Node) : Bool :=
  tagIs "a" n && (hrefContains "/attachment/" n || hrefEndsWith ".pdf" n)
    && chainUp [fun m => tagIs "article" m && (m.attr "id" == some "main-content")] ancs

def finSel3 (_ : List Node) (n : Node) : Bool :=
  tagIs "a" n
    && ((classIs "file-download" n && (hrefVal n).isSome)
      || hrefContains "/attachment/" n || hrefEndsWith ".pdf" n)

/-- Embedding of find_acts: per-host dispatch on the lower-cased netloc
and path, with the RCL nested-list selector, the SEJM .druk selector,
the DZIENNIK anchor selectors plus label fix-up, and the three FINANSE
fallback attempts. -/
def findActs (url : String) (soup : Node) : List Node :=
  let host := lowerStr (urlNetloc url)
  let path := lowerStr (urlPath url)
  if containsS host "legislacja.rcl.gov.pl" then
    (selectDesc (fun ancs n =>
      tagIs "li" n && chainUp [tagIs "ul", tagIs "ul", classIs "clearbox", tagIs "ul",
        classIs "cbp_tmlabel", tagIs "li"] ancs) soup).map (fun p => p.1)
  else if containsS host "sejm.gov.pl" then
    (selectDesc (fun _ n => classIs "druk" n) soup).map (fun p => p.1)
  else if containsS host "dziennikustaw.gov.pl" then
    dzFix (selectDesc dzSel soup)
  else if endsWithS host "gov.pl" && containsS path "/web/finanse" then
    let n1 := (selectDesc finSel1 soup).map (fun p => p.1)
    if !n1.isEmpty then n1
    else
      let n2 := (selectDesc finSel2 soup).map (fun p => p.1)
      if !n2.isEmpty then n2
      else (selectDesc finSel3 soup).map (fun p => p.1)
  else []

/-! ## The record-building loop shared by fetch_subpages and
downloadable_acts -/

/-- A discovered (title, link) record. -/
structure LinkRec where
  title : String
  link : String
deriving DecidableEq, Repr

/-- One iteration of the identical record-building loops of
fetch_subpages and downloadable_acts: take the element itself when it
is an anchor with a truthy href, else its first descendant anchor with
an href attribute; skip elements with neither (continue), skip falsy
hrefs (continue), resolve the href against the base URL, take the
stripped text as title, and keep the record only when both title and
link are nonempty. -/
def firstAnchor (article : Node) : Option Node :=
  if article.tagName == "a" && truthyS (hrefVal article) then some article
  else ((selectDesc (fun _ m => m.tagName == "a" && (hrefVal m).isSome) article).map
    (fun p => p.1)).head?

def linkOfArticle (base : String) (article : Node) : Option LinkRec :=
  match firstAnchor article with
  | none => none
  | some a =>
    match hrefVal a with
    | none => none
    | some href =>
      if href = "" then none
      else if getTextStrip a ≠ "" ∧ urljoin base href ≠ "" then
        some ⟨getTextStrip a, urljoin base href⟩
      else none

/-- The record-building loop itself: every article contributes at most
one record, independently of the others, so the loop is the filterMap
of the single-iteration function. -/
def collectLinks (base : String) (articles : List Node) : List LinkRec :=
  articles.filterMap (linkOfArticle base)

/-! ## Page-level fetchers
The page collaborator pnet maps a URL to the parsed soup of the fetched
page, or none for a transport error (raised requests.RequestException,
covering timeouts, connection failures and non-2xx statuses).  Each
fetcher returns its value together with a Boolean recording whether
logger.error was called. -/

/-- Embedding of fetch_subpages: on error an empty list plus a logged
error; otherwise the record loop over find_articles. -/
def fetchSubpages (pnet : String → Option Node) (mainUrl : String) : List LinkRec × Bool :=
  match pnet mainUrl with
  | none => ([], true)
  | some soup => (collectLinks mainUrl (findArticles mainUrl soup), false)

/-- Embedding of downloadable_acts: on error an empty list plus a
logged error; otherwise the record loop over find_acts. -/
def downloadableActs (pnet : String → Option Node) (url : String) : List LinkRec × Bool :=
  match pnet url with
  | none => ([], true)
  | some soup => (collectLinks url (findActs url soup), false)

/-- The Python value get_title_from_url returns: a string on the
success path, the literal empty list on the error path. -/
inductive TitleRet where
  | str (s : String)
  | emptyList
deriving DecidableEq, Repr

/-- First strict-descendant element matching a predicate; model of
select_one. -/
def selectOne (p : Node → Bool) (n : Node) : Option Node :=
  ((selectDesc (fun _ m => p m) n).map (fun q => q.1)).head?

/-- Embedding of get_title_from_url.  The source assigns title in an
if / if / if-else sequence; the first two assignments (the RCL and SEJM
selectors) are dead stores because the final if always reassigns, and
they are kept here as the source has them.  On error the function
returns the empty list (not a string) and logs an error. -/
def getTitleFromUrl (pnet : String → Option Node) (url : String) : TitleRet × Bool :=
  match pnet url with
  | none => (.emptyList, true)
  | some soup =>
    let host := lowerStr (urlNetloc url)
    let title1 : Option Node :=
      if containsS host "legislacja.rcl.gov.pl" then selectOne (classIs "rcl-title") soup
      else none
    let title2 : Option Node :=
      if containsS host "sejm.gov.pl" then selectOne (classIs "h2") soup
      else title1
    let title3 : Option Node :=
      if containsS host "dziennikustaw.gov.pl" || containsS host "gov.pl/web/finanse" then
        findFirstTag "h2" (match soup with | .elem _ _ cs => cs | .text _ => [])
      else findFirstTag "title" (match soup with | .elem _ _ cs => cs | .text _ => [])
    let _ := title2
    (.str (match title3 with | some t => getTextStrip t | none => "untitled"), false)

/-! ## get_acts
The orchestration, embedded in state-passing style.  The page
collaborator pnet serves the page-level fetches (title lookup, subpage
listing, act listing); the file collaborator dnet serves download_file;
the filesystem is threaded through the sequential download_file calls.
The output records whether the unsupported-host warning was logged,
which URLs were passed to the document-discovery functions
(fetch_subpages / downloadable_acts) and which URLs were passed to
download_file.  A none result models an uncaught exception from a
download_file primary fetch, which get_acts does not catch. -/

structure ActsOut where
  warned : Bool
  discovered : List String
  downloads : List String
deriving DecidableEq, Repr

/-- Convert the title value get_title_from_url produced into the
argument download_file receives: the string itself, or the empty list
which download_file treats as falsy (modeled as none). -/
def titleArg : TitleRet → Option String
  | .str s => some s
  | .emptyList => none

/-- Run download_file over a list of acts in order, threading the
filesystem through the writes; abort (none) when a call raises. -/
def dlSeq (dnet : String → Option Response) :
    (String → Bool) → Option String → Option String → List LinkRec →
    Option ((String → Bool) × List String)
  | fs, _, _, [] => some (fs, [])
  | fs, t, st, act :: rest =>
    match downloadFile act.link "legal_acts" t st dnet fs with
    | none => none
    | some r =>
      match dlSeq dnet (applyWrites fs r.writes) t st rest with
      | none => none
      | some (fs2, us) => some (fs2, act.link :: us)

/-- The inner loop of the RCL branch of get_acts: for every subpage,
list its acts and download each into the title/subpage-title folders.
Returns the final filesystem, the discovery URLs and the download
URLs. -/
def subpageSeq (pnet : String → Option Node) (dnet : String → Option Response) :
    (String → Bool) → Option String → List LinkRec →
    Option ((String → Bool) × List String × List String)
  | fs, _, [] => some (fs, [], [])
  | fs, t, sp :: rest =>
    let acts := (downloadableActs pnet sp.link).1
    match dlSeq dnet fs t (some sp.title) acts with
    | none => none
    | some (fs1, dls) =>
      match subpageSeq pnet dnet fs1 t rest with
      | none => none
      | some (fs2, ds, dls2) => some (fs2, sp.link :: ds, dls ++ dls2)

/-- Embedding of get_acts.  The first if handles the RCL profile; the
second if handles the SEJM, DZIENNIK and FINANSE profiles, and its
else branch logs the unsupported-host warning — as in the source,
where the else is attached only to the second if, so the warning also
fires for URLs that only matched the first (RCL) if. -/
def getActs (pnet : String → Option Node) (dnet : String → Option Response)
    (fs0 : String → Bool) (url : String) : Option ActsOut :=
  let host := lowerStr (urlNetloc url)
  let path := lowerStr (urlPath url)
  let step1 : Option ((String → Bool) × List String × List String) :=
    if containsS host "legislacja.rcl.gov.pl" then
      let t := (getTitleFromUrl pnet url).1
      let subpages := (fetchSubpages pnet url).1
      match subpageSeq pnet dnet fs0 (titleArg t) subpages with
      | none => none
      | some (fs1, ds, dls) => some (fs1, url :: ds, dls)
    else some (fs0, [], [])
  match step1 with
  | none => none
  | some (fs1, ds1, dls1) =>
    if containsS host "sejm.gov.pl" || containsS host "dziennikustaw.gov.pl"
        || (endsWithS host "gov.pl" && containsS path "/web/finanse") then
      let t := (getTitleFromUrl pnet url).1
      let acts := (downloadableActs pnet url).1
      match dlSeq dnet fs1 (titleArg t) none acts with
      | none => none
      | some (_, dls2) => some ⟨false, ds1 ++ [url], dls1 ++ dls2⟩
    else some ⟨true, ds1, dls1⟩

/-! ## Supporting lemmas -/

lemma isPrefixB_eq_isPrefixOf {α : Type} [BEq α] :
    ∀ (n l : List α), isPrefixB n l = n.isPrefixOf l := by
  intro n
  induction n with
  | nil => intro l; cases l <;> rfl
  | cons a as ih =>
    intro l
    cases l with
    | nil => rfl
    | cons b bs => simp [isPrefixB, List.isPrefixOf, ih]

lemma mem_subBadAux : ∀ (flag : Bool) (cs : List Char) (c : Char),
    c ∈ subBadAux flag cs → isBad c = false := by
  intro flag cs
  induction cs generalizing flag with
  | nil => intro c h; simp [subBadAux] at h
  | cons d rest ih =>
    intro c h
    unfold subBadAux at h
    by_cases hd : isBad d = true
    · rw [if_pos hd] at h
      cases flag with
      | true =>
        rw [if_pos rfl] at h
        exact ih true c h
      | false =>
        rw [if_neg (by simp)] at h
        rcases List.mem_cons.mp h with h | h
        · subst h; rfl
        · exact ih true c h
    · have hd2 : isBad d = false := by simpa using hd
      rw [if_neg (by simp [hd2])] at h
      rcases List.mem_cons.mp h with h | h
      · subst h; exact hd2
      · exact ih false c h

lemma mem_lstripSet (set : List Char) (cs : List Char) (c : Char)
    (h : c ∈ lstripSet set cs) : c ∈ cs :=
  (List.dropWhile_sublist _).subset h

lemma mem_rstripSet (set : List Char) (cs : List Char) (c : Char)
    (h : c ∈ rstripSet set cs) : c ∈ cs := by
  unfold rstripSet at h
  rw [List.mem_reverse] at h
  have := (List.dropWhile_sublist (fun c => memB c set)).subset h
  rwa [List.mem_reverse] at this

lemma mem_stripSet (set : List Char) (cs : List Char) (c : Char)
    (h : c ∈ stripSet set cs) : c ∈ cs :=
  mem_lstripSet set cs c (mem_rstripSet set (lstripSet set cs) c h)

lemma mem_safeStage (s : String) (c : Char) (h : c ∈ safeStage s) : isBad c = false :=
  mem_subBadAux false s.data c
    (mem_stripSet _ _ c (mem_stripSet _ _ c h))

lemma head?_dropWhile {α : Type} (p : α → Bool) :
    ∀ (l : List α) (c : α), (l.dropWhile p).head? = some c → p c = false := by
  intro l
  induction l with
  | nil => intro c h; simp [List.dropWhile] at h
  | cons a as ih =>
    intro c h
    by_cases ha : p a = true
    · rw [List.dropWhile_cons_of_pos ha] at h
      exact ih c h
    · rw [List.dropWhile_cons_of_neg ha] at h
      simp at h
      subst h
      simpa using ha

lemma getLast?_rstripSet (set : List Char) (cs : List Char) (c : Char)
    (h : (rstripSet set cs).getLast? = some c) : memB c set = false := by
  unfold rstripSet at h
  rw [List.getLast?_reverse] at h
  exact head?_dropWhile _ _ c h

/-! ## Claim C5: the PDF sniff -/

/-- C5: for every response body and Content-Type header,
_looks_like_pdf returns true if and only if the first four bytes of
the body, after ignoring leading whitespace, are the signature %PDF,
or the Content-Type header contains "pdf" case-insensitively; in
particular a body starting with %PDF-1.4 is valid regardless of
Content-Type, and an arbitrary body with Content-Type application/pdf
is valid.  (The separate no-strip check of the source is absorbed by
the stripped check, since the signature does not start with a
whitespace byte.) -/
theorem looks_like_pdf_spec :
    (∀ (content : List Nat) (ct : Option String),
      looksLikePdf content ct
        = (((content.dropWhile isWsByte).take 4 == pdfSig)
            || containsS (lowerStr (ct.getD "")) "pdf"))
    ∧ (∀ ct : Option String,
        looksLikePdf [0x25, 0x50, 0x44, 0x46, 0x2d, 0x31, 0x2e, 0x34] ct = true)
    ∧ (∀ content : List Nat, looksLikePdf content (some "application/pdf") = true) := by
  refine ⟨?_, ?_, ?_⟩
  · intro c ct
    unfold looksLikePdf
    by_cases h1 : c.take 4 = pdfSig
    · have h2 : (c.dropWhile isWsByte).take 4 = pdfSig := by
        cases c with
        | nil => simp [pdfSig] at h1
        | cons b bs =>
          rw [show (4 : Nat) = 3 + 1 from rfl, List.take_succ_cons, pdfSig] at h1
          have hb : b = 37 := (List.cons.inj h1).1
          subst hb
          rw [List.dropWhile_cons_of_neg (by simp [isWsByte])]
          rw [show (4 : Nat) = 3 + 1 from rfl, List.take_succ_cons, pdfSig]
          exact h1
      simp [h1, h2]
    · have h1b : (c.take 4 == pdfSig) = false := by simp [h1]
      rw [h1b]
      simp only [Bool.false_eq_true, if_false]
      by_cases h2 : (c.dropWhile isWsByte).take 4 = pdfSig
      · simp [h2]
      · simp [h2]
  · intro ct; rfl
  · intro c
    unfold looksLikePdf
    by_cases h1 : c.take 4 = pdfSig
    · simp [h1]
    · by_cases h2 : (c.dropWhile isWsByte).take 4 = pdfSig
      · simp [h1, h2]
      · simp [h1, h2]
        rfl

/-! ## Claim C6: _safe_dirname -/

/-- C6, as stated, is false: the trailing-dot-and-space trim runs
before the 120-character truncation, so a long input can yield a
result that ends in a dot.  Concretely, 119 letters a, a dot, and a
letter b sanitize to 119 letters a followed by a dot. -/
theorem safe_dirname_trailing_dot_cex :
    (safeDirname (String.mk (List.replicate 119 'a' ++ ['.', 'b']))).data.getLast?
      = some '.' := by
  decide

/-- C6 amended: for every input string, the sanitized name contains
none of the disallowed characters, has length at most 120 and is
non-empty ("untitled" replaces an empty result); and because trailing
dots and spaces are trimmed before the truncation, the result has no
trailing dot or space whenever the trimmed intermediate string is at
most 120 characters long (longer inputs may end in a dot or space cut
free by the truncation). -/
theorem safe_dirname_props (s : String) :
    (∀ c ∈ (safeDirname s).data, isBad c = false)
    ∧ (safeDirname s).length ≤ 120
    ∧ safeDirname s ≠ ""
    ∧ ((safeStage s).length ≤ 120 →
        ∀ c, (safeDirname s).data.getLast? = some c → c ≠ ' ' ∧ c ≠ '.') := by
  unfold safeDirname
  by_cases ht : ((safeStage s).take 120).isEmpty
  · rw [if_pos ht]
    refine ⟨by decide, by decide, by decide, ?_⟩
    intro _ c hc
    have : c = 'd' := by
      rw [show ("untitled" : String).data.getLast? = some 'd' from rfl] at hc
      exact (Option.some.inj hc).symm
    subst this
    exact ⟨by decide, by decide⟩
  · rw [if_neg ht]
    refine ⟨?_, ?_, ?_, ?_⟩
    · intro c hc
      exact mem_safeStage s c ((List.take_sublist 120 (safeStage s)).subset hc)
    · show ((safeStage s).take 120).length ≤ 120
      rw [List.length_take]
      exact Nat.min_le_left _ _
    · intro he
      apply ht
      have : ((safeStage s).take 120) = [] := congrArg String.data he
      simp [this]
    · intro hlen c hc
      rw [List.take_of_length_le hlen] at hc
      have hm : memB c [' ', '.'] = false := by
        unfold safeStage stripSet at hc
        exact getLast?_rstripSet _ _ c hc
      constructor
      · intro he; subst he; simp [memB] at hm
      · intro he; subst he; simp [memB] at hm

/-- Witness for safe_dirname_props at the spec's own example: the
sanitized Ministry/Report title is non-empty and has no trailing dot
or space (its trimmed form is short). -/
theorem safe_dirname_props_witness :
    safeDirname "Ministry/Report: 2024?" ≠ ""
    ∧ (∀ c, (safeDirname "Ministry/Report: 2024?").data.getLast? = some c →
        c ≠ ' ' ∧ c ≠ '.') :=
  ⟨(safe_dirname_props "Ministry/Report: 2024?").2.2.1,
   (safe_dirname_props "Ministry/Report: 2024?").2.2.2 (by decide)⟩

/-! ## Claim C8: page-level transport errors are absorbed -/

/-- C8: for every URL, when the page-level fetch raises a transport
error (modeled as pnet url = none, covering timeouts, connection
failures and the non-2xx statuses raised by raise_for_status), each of
fetch_subpages, downloadable_acts and get_title_from_url catches it,
logs an error (the Boolean component) and returns an empty result, so
callers proceed as if nothing was found. -/
theorem transport_error_empty_result
    (pnet : String → Option Node) (url : String) (h : pnet url = none) :
    fetchSubpages pnet url = ([], true)
    ∧ downloadableActs pnet url = ([], true)
    ∧ getTitleFromUrl pnet url = (.emptyList, true) := by
  refine ⟨?_, ?_, ?_⟩ <;> simp [fetchSubpages, downloadableActs, getTitleFromUrl, h]

/-- Witness: a network where every fetch raises, at a concrete URL. -/
theorem transport_error_empty_result_witness :
    fetchSubpages (fun _ => none) "https://legislacja.rcl.gov.pl/projekt/1" = ([], true)
    ∧ downloadableActs (fun _ => none) "https://legislacja.rcl.gov.pl/projekt/1" = ([], true)
    ∧ getTitleFromUrl (fun _ => none) "https://legislacja.rcl.gov.pl/projekt/1"
        = (.emptyList, true) :=
  transport_error_empty_result (fun _ => none) "https://legislacja.rcl.gov.pl/projekt/1" rfl

/-! ## Claim C9: the unsupported-host warning -/

/-- C9 describes the intended behavior, but the code has a slip: in
get_acts the else that logs "Unsupported host ..." is attached only to
the second if (the SEJM / DZIENNIK / FINANSE conditions), not to the
if that handles the RCL profile.  A legislacja.rcl.gov.pl URL
therefore runs the full RCL discovery (here: one discovery fetch of
the URL, which fails on this all-errors network) and the warning is
still logged, contradicting the claim that a profile-matching URL
never warns.  The second conjunct shows the URL does match the RCL
profile; the third shows that for a genuinely unknown host no
discovery or download is attempted and the warning fires, the part of
the claim that does hold. -/
theorem get_acts_warns_on_rcl_url :
    getActs (fun _ => none) (fun _ => none) (fun _ => false)
        "https://legislacja.rcl.gov.pl/projekt/12345"
      = some ⟨true, ["https://legislacja.rcl.gov.pl/projekt/12345"], []⟩
    ∧ containsS (lowerStr (urlNetloc "https://legislacja.rcl.gov.pl/projekt/12345"))
        "legislacja.rcl.gov.pl" = true
    ∧ getActs (fun _ => none) (fun _ => none) (fun _ => false) "https://example.com/page"
      = some ⟨true, [], []⟩ := by
  refine ⟨by decide, by decide, by decide⟩

/-! ## Claim C7: the normalizer emits no empty fields -/

lemma linkOfArticle_nonempty (base : String) (art : Node) (r : LinkRec)
    (h : linkOfArticle base art = some r) : r.title ≠ "" ∧ r.link ≠ "" := by
  unfold linkOfArticle at h
  split at h
  · exact Option.noConfusion h
  · split at h
    · exact Option.noConfusion h
    · split at h
      · exact Option.noConfusion h
      · split at h
        · rename_i hcond
          have := Option.some.inj h
          subst this
          exact hcond
        · exact Option.noConfusion h

/-- C7: for every input element sequence and base URL, the record
loop shared by fetch_subpages and downloadable_acts never emits a
record with an empty title or an empty link; elements with no
href-bearing anchor and anchors with falsy text or href are dropped
silently.  The second and third conjuncts restate this for the two
fetchers themselves, whose loops are this normalizer. -/
theorem normalize_no_empty_records :
    (∀ (base : String) (articles : List Node) (r : LinkRec),
        r ∈ collectLinks base articles → r.title ≠ "" ∧ r.link ≠ "")
    ∧ (∀ (pnet : String → Option Node) (u : String) (r : LinkRec),
        r ∈ (fetchSubpages pnet u).1 → r.title ≠ "" ∧ r.link ≠ "")
    ∧ (∀ (pnet : String → Option Node) (u : String) (r : LinkRec),
        r ∈ (downloadableActs pnet u).1 → r.title ≠ "" ∧ r.link ≠ "") := by
  have base_case : ∀ (base : String) (articles : List Node) (r : LinkRec),
      r ∈ collectLinks base articles → r.title ≠ "" ∧ r.link ≠ "" := by
    intro base articles r h
    unfold collectLinks at h
    rcases List.mem_filterMap.mp h with ⟨a, _, ha⟩
    exact linkOfArticle_nonempty base a r ha
  refine ⟨base_case, ?_, ?_⟩
  · intro pnet u r h
    unfold fetchSubpages at h
    cases hp : pnet u with
    | none => rw [hp] at h; simp at h
    | some soup => rw [hp] at h; exact base_case u _ r h
  · intro pnet u r h
    unfold downloadableActs at h
    cases hp : pnet u with
    | none => rw [hp] at h; simp at h
    | some soup => rw [hp] at h; exact base_case u _ r h

/-- Witness: a concrete anchor element produces a record, and the
theorem yields its nonemptiness. -/
theorem normalize_no_empty_records_witness :
    (⟨"T", "https://x/y"⟩ : LinkRec).title ≠ ""
    ∧ (⟨"T", "https://x/y"⟩ : LinkRec).link ≠ "" :=
  normalize_no_empty_records.1 "https://x"
    [Node.elem "a" [("href", "/y")] [Node.text "T"]] ⟨"T", "https://x/y"⟩ (by decide)

/-! ## Claim C4: filename derivation precedence -/

/-- A one-character string holding the apostrophe, used to spell
Content-Disposition examples. -/
def squoteS : String := String.mk [squote]

/-- C4: filename derivation prefers the extended Content-Disposition
form, then the quoted form, then the bare form (whose capture is
stripped); with no Content-Disposition filename the last path segment
of the URL is used, and a generic fallback name when that is empty.
In particular a header carrying both the extended form (value a.pdf)
and the quoted form (value b.pdf) yields a.pdf, and the two URL
fallback cases behave as described. -/
theorem filename_precedence :
    (∀ (s : String) (v : List Char), searchAt matchExt s.data = some v →
        filenameFromCd (some s) = some (String.mk v))
    ∧ (∀ (s : String) (v : List Char), searchAt matchExt s.data = none →
        searchAt matchQuoted s.data = some v →
        filenameFromCd (some s) = some (String.mk v))
    ∧ (∀ (s : String) (v : List Char),
        searchAt matchExt s.data = none → searchAt matchQuoted s.data = none →
        searchAt matchBare s.data = some v →
        filenameFromCd (some s) = some (pyStripStr (String.mk v)))
    ∧ (∀ (cd : Option String) (url : String), filenameFromCd cd = none →
        primaryFilename cd url
          = (if basenameP (urlPath url) = "" then "pobrany_plik" else basenameP (urlPath url)))
    ∧ filenameFromCd (some ("attachment; filename*=UTF-8" ++ squoteS ++ squoteS
        ++ "a.pdf; filename=\"b.pdf\"")) = some "a.pdf"
    ∧ primaryFilename none "https://h/x/y.pdf" = "y.pdf"
    ∧ primaryFilename none "https://h/x/" = "pobrany_plik" := by
  refine ⟨?_, ?_, ?_, ?_, by decide, by decide, by decide⟩
  · intro s v h
    by_cases hs : s = ""
    · subst hs
      rw [show searchAt matchExt "".data = (none : Option (List Char)) from rfl] at h
      exact Option.noConfusion h
    · simp [filenameFromCd, hs, h]
  · intro s v h1 h2
    by_cases hs : s = ""
    · subst hs
      rw [show searchAt matchQuoted "".data = (none : Option (List Char)) from rfl] at h2
      exact Option.noConfusion h2
    · simp [filenameFromCd, hs, h1, h2]
  · intro s v h1 h2 h3
    by_cases hs : s = ""
    · subst hs
      rw [show searchAt matchBare "".data = (none : Option (List Char)) from rfl] at h3
      exact Option.noConfusion h3
    · simp [filenameFromCd, hs, h1, h2, h3]
  · intro cd url h
    simp [primaryFilename, h, pyOrS]

/-- Witness: the quoted form is used when the extended form is absent,
at a concrete header. -/
theorem filename_precedence_witness :
    filenameFromCd (some "attachment; filename=\"b.pdf\"") = some (String.mk "b.pdf".data) :=
  filename_precedence.2.1 "attachment; filename=\"b.pdf\"" "b.pdf".data rfl rfl

/-! ## Claim C3: DZIENNIK locator plus normalizer -/

/-- The page of the end-to-end scenario: a document whose body holds
one paragraph with a bold label and an anchor without visible text. -/
def dzExamplePage : Node :=
  .elem "[document]" [] [
    .elem "html" [] [
      .elem "body" [] [
        .elem "p" [] [
          .elem "b" [] [.text "Rozporządzenie"],
          .text " ",
          .elem "a" [("href", "/DU/2024/123.pdf")] []]]]]

def dzExampleUrl : String := "https://dziennikustaw.gov.pl/DU/2024"

lemma boldLabel_ne_empty (ancs : List Node) (l : String)
    (h : boldLabel ancs = some l) : l ≠ "" := by
  unfold boldLabel at h
  split at h
  · split at h
    · split at h
      · exact Option.noConfusion h
      · rename_i hne
        have := Option.some.inj h
        subst this
        exact hne
    · exact Option.noConfusion h
  · exact Option.noConfusion h

/-- C3: on the DZIENNIK example page, the Document Locator (find_acts)
followed by the Link Normalizer yields exactly one record, whose title
is the bold text and whose link resolves the href against the base
URL.  In general, for a matched anchor lacking visible text, the
appended label comes first from a bold element inside the enclosing
paragraph, then from an enclosed image's title-or-alt when truthy,
then from the last path segment of the href. -/
theorem dziennik_locator_normalizer :
    (collectLinks dzExampleUrl (findActs dzExampleUrl dzExamplePage)
        = [⟨"Rozporządzenie", "https://dziennikustaw.gov.pl/DU/2024/123.pdf"⟩]
      ∧ (findActs dzExampleUrl dzExamplePage).length = 1)
    ∧ (∀ (a : Node) (ancs : List Node) (href l : String),
        boldLabel ancs = some l → deriveLabel a ancs href = l)
    ∧ (∀ (a : Node) (ancs : List Node) (href l : String),
        boldLabel ancs = none → imgLabel a = some l → l ≠ "" →
        deriveLabel a ancs href = l)
    ∧ (∀ (a : Node) (ancs : List Node) (href : String),
        boldLabel ancs = none → (imgLabel a = none ∨ imgLabel a = some "") →
        deriveLabel a ancs href = lastSegment href) := by
  refine ⟨⟨by decide, by decide⟩, ?_, ?_, ?_⟩
  · intro a ancs href l h
    have hne := boldLabel_ne_empty ancs l h
    simp [deriveLabel, h, truthyS, hne]
  · intro a ancs href l h1 h2 h3
    simp [deriveLabel, h1, h2, truthyS, h3]
  · intro a ancs href h1 h2
    rcases h2 with h2 | h2 <;> simp [deriveLabel, h1, h2, truthyS]

/-- Witness: the image-label fallback at a concrete anchor holding an
image with an alt text and no enclosing paragraph. -/
theorem dziennik_locator_normalizer_witness :
    deriveLabel (Node.elem "a" [("href", "/DU/5.pdf")]
        [Node.elem "img" [("alt", "Okladka")] []]) [] "/DU/5.pdf" = "Okladka" :=
  dziennik_locator_normalizer.2.2.1
    (Node.elem "a" [("href", "/DU/5.pdf")] [Node.elem "img" [("alt", "Okladka")] []])
    [] "/DU/5.pdf" "Okladka" rfl rfl (by decide)

/-! ## Claim C1: the retry policy of download_file -/

/-- A retry candidate fails when its fetch raises (swallowed) or its
body fails the sniff. -/
def altFailsB (net : String → Option Response) (a : String) : Bool :=
  match net a with
  | none => true
  | some r => !looksLikePdf r.body r.contentType

/-- The outcome of the first sniff-passing alternate: the recomputed
destination path (the alternate's Content-Disposition filename, or the
primary filename when it has none), returned as-is when it already
exists and written otherwise. -/
def altOutcome (fs : String → Bool) (baseDir filename : String) (r : Response) : AltOut :=
  let dp := osJoin baseDir (pyOrS (filenameFromCd r.contentDisposition) filename)
  if fs dp then ⟨dp, []⟩ else ⟨dp, [(dp, r.body)]⟩

/-- C1, as stated, fails on the code: the same-path existence check
runs before the sniff, so when the primary destination path already
exists download_file returns it immediately and attempts no alternate
even though the body failed the sniff and the host/path retry
conditions hold.  Here: the fetched body is not a PDF, the host ends
with gov.pl, the path contains /attachment/, yet the fetched-URL list
of the run is just the original URL — no alternate form was tried. -/
theorem download_retry_policy_cex :
    looksLikePdf [60] (some "text/html") = false
    ∧ endsWithS (urlNetloc "https://x.gov.pl/attachment/1") "gov.pl" = true
    ∧ containsS (urlPath "https://x.gov.pl/attachment/1") "/attachment/" = true
    ∧ downloadFile "https://x.gov.pl/attachment/1" "dl" none none
        (fun u => if u == "https://x.gov.pl/attachment/1"
          then some ⟨none, some "text/html", [60]⟩ else none)
        (fun p => p == "dl/1")
      = some ⟨"dl/1", [], ["https://x.gov.pl/attachment/1"]⟩ := by
  exact ⟨by decide, by decide, by decide, by decide⟩

/-- C1 amended: for a download target whose fetched body fails the PDF
sniff and whose primary destination path does not already exist,
download_file attempts the alternate URL forms exactly when the host
ends with gov.pl and the path contains /attachment/: with the
condition false it writes the fetched body to the primary path having
fetched only the URL; with the condition true it tries, in order, the
/download form then the download=1 form, swallowing transport errors,
and on the first alternate passing the sniff it recomputes the
destination from that alternate's filename, returns it without
writing when it exists and writes the alternate body otherwise; when
every alternate fails the original body is written to the primary
path. -/
theorem download_retry_policy
    (url folder : String) (title subtitle : Option String)
    (net : String → Option Response) (fs : String → Bool) (resp : Response)
    (hnet : net url = some resp)
    (hsniff : looksLikePdf resp.body resp.contentType = false)
    (hnew : fs (primaryDest url folder title subtitle resp) = false) :
    ((endsWithS (urlNetloc url) "gov.pl" && containsS (urlPath url) "/attachment/") = false →
      downloadFile url folder title subtitle net fs
        = some ⟨primaryDest url folder title subtitle resp,
            [(primaryDest url folder title subtitle resp, resp.body)], [url]⟩)
    ∧ (∀ r1 : Response,
        (endsWithS (urlNetloc url) "gov.pl" && containsS (urlPath url) "/attachment/") = true →
        net (altA url) = some r1 → looksLikePdf r1.body r1.contentType = true →
        downloadFile url folder title subtitle net fs
          = some ⟨(altOutcome fs (destDir folder title subtitle)
                (primaryFilename resp.contentDisposition url) r1).path,
              (altOutcome fs (destDir folder title subtitle)
                (primaryFilename resp.contentDisposition url) r1).writes,
              [url, altA url]⟩)
    ∧ (∀ r2 : Response,
        (endsWithS (urlNetloc url) "gov.pl" && containsS (urlPath url) "/attachment/") = true →
        altFailsB net (altA url) = true →
        net (altB url) = some r2 → looksLikePdf r2.body r2.contentType = true →
        downloadFile url folder title subtitle net fs
          = some ⟨(altOutcome fs (destDir folder title subtitle)
                (primaryFilename resp.contentDisposition url) r2).path,
              (altOutcome fs (destDir folder title subtitle)
                (primaryFilename resp.contentDisposition url) r2).writes,
              [url, altA url, altB url]⟩)
    ∧ ((endsWithS (urlNetloc url) "gov.pl" && containsS (urlPath url) "/attachment/") = true →
        altFailsB net (altA url) = true → altFailsB net (altB url) = true →
        downloadFile url folder title subtitle net fs
          = some ⟨primaryDest url folder title subtitle resp,
              [(primaryDest url folder title subtitle resp, resp.body)],
              [url, altA url, altB url]⟩) := by
  have hdf : downloadFile url folder title subtitle net fs
      = downloadBody url folder title subtitle net fs resp := by
    unfold downloadFile; rw [hnet]
  refine ⟨?_, ?_, ?_, ?_⟩
  · intro hc
    have hr : retryCond resp url = false := by
      simp [retryCond, Bool.and_assoc, hc]
    rw [hdf]
    unfold downloadBody
    rw [if_neg (by simp [hnew]), if_neg (by simp [hr])]
  · intro r1 hc h1 hs1
    have hr : retryCond resp url = true := by
      simp [retryCond, Bool.and_assoc, hc, hsniff]
    rw [hdf]
    unfold downloadBody
    rw [if_neg (by simp [hnew]), if_pos (by simp [hr])]
    unfold altCandidates tryAlts
    rw [h1]
    simp only [hs1, if_true]
    unfold altOutcome
    by_cases hd : fs (osJoin (destDir folder title subtitle)
        (pyOrS (filenameFromCd r1.contentDisposition)
          (primaryFilename resp.contentDisposition url))) = true
    · simp [hd]
    · simp [hd]
  · intro r2 hc hfa h2 hs2
    have hr : retryCond resp url = true := by
      simp [retryCond, Bool.and_assoc, hc, hsniff]
    rw [hdf]
    unfold downloadBody
    rw [if_neg (by simp [hnew]), if_pos (by simp [hr])]
    unfold altCandidates tryAlts
    have hstep : tryAlts net fs (destDir folder title subtitle)
        (primaryFilename resp.contentDisposition url) [altB url]
        = ([altB url], some (altOutcome fs (destDir folder title subtitle)
            (primaryFilename resp.contentDisposition url) r2)) := by
      unfold tryAlts
      rw [h2]
      simp only [hs2, if_true]
      unfold altOutcome
      by_cases hd : fs (osJoin (destDir folder title subtitle)
          (pyOrS (filenameFromCd r2.contentDisposition)
            (primaryFilename resp.contentDisposition url))) = true
      · simp [hd]
      · simp [hd]
    unfold altFailsB at hfa
    cases hA : net (altA url) with
    | none =>
      simp [hstep]
    | some r1 =>
      rw [hA] at hfa
      have hl : looksLikePdf r1.body r1.contentType = false := by
        simpa using hfa
      simp [hl, hstep]
  · intro hc hfa hfb
    have hr : retryCond resp url = true := by
      simp [retryCond, Bool.and_assoc, hc, hsniff]
    rw [hdf]
    unfold downloadBody
    rw [if_neg (by simp [hnew]), if_pos (by simp [hr])]
    unfold altCandidates tryAlts
    have hstep : tryAlts net fs (destDir folder title subtitle)
        (primaryFilename resp.contentDisposition url) [altB url]
        = ([altB url], none) := by
      unfold tryAlts
      cases hB : net (altB url) with
      | none => rfl
      | some r2 =>
        unfold altFailsB at hfb
        rw [hB] at hfb
        have hl2 : looksLikePdf r2.body r2.contentType = false := by simpa using hfb
        simp [hl2, tryAlts]
    unfold altFailsB at hfa
    cases hA : net (altA url) with
    | none =>
      simp [hstep]
    | some r1 =>
      rw [hA] at hfa
      have hl : looksLikePdf r1.body r1.contentType = false := by simpa using hfa
      simp [hl, hstep]

/-- Witness: the spec's retry scenario — the primary fetch of a
gov.pl /attachment/ URL returns an HTML error page, the /download
alternate raises a swallowed transport error, and the download=1
alternate returns PDF bytes, which are written at the path derived
from that alternate's filename. -/
theorem download_retry_policy_witness :
    downloadFile "https://www.gov.pl/web/finanse/attachment/42" "legal_acts" (some "T") none
      (fun u =>
        if u == "https://www.gov.pl/web/finanse/attachment/42"
          then some ⟨none, some "text/html", [60]⟩
        else if u == "https://www.gov.pl/web/finanse/attachment/42?download=1"
          then some ⟨some "attachment; filename=\"akt.pdf\"", some "application/pdf",
            [37, 80, 68, 70]⟩
        else none)
      (fun _ => false)
      = some ⟨(altOutcome (fun _ => false) (destDir "legal_acts" (some "T") none)
            (primaryFilename none "https://www.gov.pl/web/finanse/attachment/42")
            ⟨some "attachment; filename=\"akt.pdf\"", some "application/pdf",
              [37, 80, 68, 70]⟩).path,
          (altOutcome (fun _ => false) (destDir "legal_acts" (some "T") none)
            (primaryFilename none "https://www.gov.pl/web/finanse/attachment/42")
            ⟨some "attachment; filename=\"akt.pdf\"", some "application/pdf",
              [37, 80, 68, 70]⟩).writes,
          ["https://www.gov.pl/web/finanse/attachment/42",
           altA "https://www.gov.pl/web/finanse/attachment/42",
           altB "https://www.gov.pl/web/finanse/attachment/42"]⟩ :=
  (download_retry_policy "https://www.gov.pl/web/finanse/attachment/42" "legal_acts"
      (some "T") none _ (fun _ => false) ⟨none, some "text/html", [60]⟩
      (by decide) (by decide) (by decide)).2.2.1
    ⟨some "attachment; filename=\"akt.pdf\"", some "application/pdf", [37, 80, 68, 70]⟩
    (by decide) (by decide) (by decide) (by decide)

/-! ## Claim C2: calling download_file twice -/

/-- Unfolding lemma: a successful primary fetch continues with
downloadBody. -/
lemma downloadFile_some (url folder : String) (title subtitle : Option String)
    (net : String → Option Response) (fs : String → Bool) (resp : Response)
    (hn : net url = some resp) :
    downloadFile url folder title subtitle net fs
      = downloadBody url folder title subtitle net fs resp := by
  rw [downloadFile, hn]

/-- Unfolding lemma: a raising primary fetch propagates. -/
lemma downloadFile_none (url folder : String) (title subtitle : Option String)
    (net : String → Option Response) (fs : String → Bool)
    (hn : net url = none) :
    downloadFile url folder title subtitle net fs = none := by
  rw [downloadFile, hn]

/-- Unfolding lemma: a candidate whose fetch raises is skipped. -/
lemma tryAlts_cons_err (net : String → Option Response) (fs : String → Bool)
    (b fn alt : String) (rest : List String) (hA : net alt = none) :
    tryAlts net fs b fn (alt :: rest)
      = (alt :: (tryAlts net fs b fn rest).1, (tryAlts net fs b fn rest).2) := by
  rw [tryAlts, hA]

/-- Unfolding lemma: a fetched candidate that fails the sniff is
skipped. -/
lemma tryAlts_cons_sniffFail (net : String → Option Response) (fs : String → Bool)
    (b fn alt : String) (rest : List String) (r2 : Response)
    (hA : net alt = some r2) (hs : looksLikePdf r2.body r2.contentType = false) :
    tryAlts net fs b fn (alt :: rest)
      = (alt :: (tryAlts net fs b fn rest).1, (tryAlts net fs b fn rest).2) := by
  rw [tryAlts, hA]
  simp [hs]

/-- Unfolding lemma: the first candidate that passes the sniff ends
the loop with the altOutcome. -/
lemma tryAlts_cons_pass (net : String → Option Response) (fs : String → Bool)
    (b fn alt : String) (rest : List String) (r2 : Response)
    (hA : net alt = some r2) (hs : looksLikePdf r2.body r2.contentType = true) :
    tryAlts net fs b fn (alt :: rest) = ([alt], some (altOutcome fs b fn r2)) := by
  rw [tryAlts, hA]
  by_cases hd : fs (osJoin b (pyOrS (filenameFromCd r2.contentDisposition) fn)) = true
  · simp [hs, altOutcome, hd]
  · simp [hs, altOutcome, hd]

lemma altOutcome_path (fs : String → Bool) (b fn : String) (r2 : Response) :
    (altOutcome fs b fn r2).path
      = osJoin b (pyOrS (filenameFromCd r2.contentDisposition) fn) := by
  unfold altOutcome
  by_cases hd : fs (osJoin b (pyOrS (filenameFromCd r2.contentDisposition) fn)) = true
  · simp [hd]
  · simp [hd]

lemma altOutcome_of_exists (fs : String → Bool) (b fn : String) (r2 : Response)
    (h : fs (osJoin b (pyOrS (filenameFromCd r2.contentDisposition) fn)) = true) :
    altOutcome fs b fn r2
      = ⟨osJoin b (pyOrS (filenameFromCd r2.contentDisposition) fn), []⟩ := by
  unfold altOutcome
  rw [if_pos h]

/-- In the retry loop only the iteration that passes the sniff
consults the filesystem, so running it again on a filesystem in which
the chosen path exists stops at the same candidate with the same path
and no write. -/
lemma tryAlts_stable (net : String → Option Response) (fs fs2 : String → Bool)
    (b fn : String) :
    ∀ (cs : List String) (f : List String) (o : AltOut),
      tryAlts net fs b fn cs = (f, some o) → fs2 o.path = true →
      tryAlts net fs2 b fn cs = (f, some ⟨o.path, []⟩) := by
  intro cs
  induction cs with
  | nil =>
    intro f o h _
    rw [tryAlts] at h
    exact Option.noConfusion (congrArg Prod.snd h)
  | cons alt rest ih =>
    intro f o h hfs2
    cases hA : net alt with
    | none =>
      rw [tryAlts_cons_err net fs b fn alt rest hA] at h
      cases htr : tryAlts net fs b fn rest with
      | mk f1 o1 =>
        rw [htr] at h
        have hf : alt :: f1 = f := congrArg Prod.fst h
        have ho : o1 = some o := congrArg Prod.snd h
        subst ho
        rw [tryAlts_cons_err net fs2 b fn alt rest hA, ih f1 o htr hfs2, hf]
    | some r2 =>
      by_cases hs : looksLikePdf r2.body r2.contentType = true
      · rw [tryAlts_cons_pass net fs b fn alt rest r2 hA hs] at h
        have hf : [alt] = f := congrArg Prod.fst h
        have ho : altOutcome fs b fn r2 = o := Option.some.inj (congrArg Prod.snd h)
        have hp : o.path = osJoin b (pyOrS (filenameFromCd r2.contentDisposition) fn) := by
          rw [← ho, altOutcome_path]
        rw [tryAlts_cons_pass net fs2 b fn alt rest r2 hA hs, hf,
          altOutcome_of_exists fs2 b fn r2 (by rw [← hp]; exact hfs2), hp]
      · have hsf : looksLikePdf r2.body r2.contentType = false := by simpa using hs
        rw [tryAlts_cons_sniffFail net fs b fn alt rest r2 hA hsf] at h
        cases htr : tryAlts net fs b fn rest with
        | mk f1 o1 =>
          rw [htr] at h
          have hf : alt :: f1 = f := congrArg Prod.fst h
          have ho : o1 = some o := congrArg Prod.snd h
          subst ho
          rw [tryAlts_cons_sniffFail net fs2 b fn alt rest r2 hA hsf,
            ih f1 o htr hfs2, hf]

/-- A successful retry outcome either found the path already existing
(no write) or wrote the alternate body at the path. -/
lemma tryAlts_shape (net : String → Option Response) (fs : String → Bool)
    (b fn : String) :
    ∀ (cs : List String) (f : List String) (o : AltOut),
      tryAlts net fs b fn cs = (f, some o) →
      (o.writes = [] ∧ fs o.path = true)
      ∨ ∃ bd, o.writes = [(o.path, bd)] ∧ fs o.path = false := by
  intro cs
  induction cs with
  | nil =>
    intro f o h
    rw [tryAlts] at h
    exact Option.noConfusion (congrArg Prod.snd h)
  | cons alt rest ih =>
    intro f o h
    cases hA : net alt with
    | none =>
      rw [tryAlts_cons_err net fs b fn alt rest hA] at h
      cases htr : tryAlts net fs b fn rest with
      | mk f1 o1 =>
        rw [htr] at h
        have ho : o1 = some o := congrArg Prod.snd h
        subst ho
        exact ih f1 o htr
    | some r2 =>
      by_cases hs : looksLikePdf r2.body r2.contentType = true
      · rw [tryAlts_cons_pass net fs b fn alt rest r2 hA hs] at h
        have ho : altOutcome fs b fn r2 = o := Option.some.inj (congrArg Prod.snd h)
        by_cases hd : fs (osJoin b (pyOrS (filenameFromCd r2.contentDisposition) fn)) = true
        · left
          rw [← ho, altOutcome_of_exists fs b fn r2 hd]
          exact ⟨rfl, hd⟩
        · right
          refine ⟨r2.body, ?_, ?_⟩
          · rw [← ho]
            unfold altOutcome
            rw [if_neg hd]
          · rw [← ho, altOutcome_path]
            simpa using hd
      · have hsf : looksLikePdf r2.body r2.contentType = false := by simpa using hs
        rw [tryAlts_cons_sniffFail net fs b fn alt rest r2 hA hsf] at h
        cases htr : tryAlts net fs b fn rest with
        | mk f1 o1 =>
          rw [htr] at h
          have ho : o1 = some o := congrArg Prod.snd h
          subst ho
          exact ih f1 o htr

/-- C2, as stated, fails on one point: download_file always issues the
HTTP GET before the existence check, because the filename (and hence
the destination path) is derived from the response headers, so the
second call does re-fetch the URL.  Concretely: with the file from the
first call in place, the second call returns the same path with no
write, but its fetched-URL list is the original URL, not empty. -/
theorem download_second_call_cex :
    downloadFile "https://h/x/f.pdf" "dl" none none
        (fun u => if u == "https://h/x/f.pdf"
          then some ⟨none, some "application/pdf", [37, 80, 68, 70]⟩ else none)
        (fun p => p == "dl/f.pdf")
      = some ⟨"dl/f.pdf", [], ["https://h/x/f.pdf"]⟩
    ∧ (["https://h/x/f.pdf"] : List String) ≠ [] := by
  exact ⟨by decide, by decide⟩

/-- C2 amended: calling download_file twice with an identical target
and no change in remote state yields the same destination path on the
second call with no write performed, guarded by the existence check on
the computed destination path before any write — but the URL is
re-fetched by the second call, since the filename is derived from the
response headers. -/
theorem download_second_call_same_path
    (url folder : String) (title subtitle : Option String)
    (net : String → Option Response) (fs : String → Bool) (r : DlResult)
    (h : downloadFile url folder title subtitle net fs = some r) :
    ∃ r2 : DlResult,
      downloadFile url folder title subtitle net (applyWrites fs r.writes) = some r2
      ∧ r2.path = r.path ∧ r2.writes = [] := by
  cases hn : net url with
  | none =>
    rw [downloadFile_none url folder title subtitle net fs hn] at h
    exact Option.noConfusion h
  | some resp =>
    rw [downloadFile_some url folder title subtitle net fs resp hn] at h
    rw [downloadBody] at h
    by_cases hd : fs (primaryDest url folder title subtitle resp) = true
    · rw [if_pos hd] at h
      have hr := Option.some.inj h
      refine ⟨⟨primaryDest url folder title subtitle resp, [], [url]⟩, ?_, ?_, rfl⟩
      · rw [downloadFile_some url folder title subtitle net
            (applyWrites fs r.writes) resp hn, downloadBody]
        rw [if_pos ?_]
        have : r.writes = [] := by rw [← hr]
        rw [this]
        simp [applyWrites, hd]
      · rw [← hr]
    · rw [if_neg hd] at h
      have hdf : fs (primaryDest url folder title subtitle resp) = false := by
        simpa using hd
      by_cases hrc : retryCond resp url = true
      · rw [if_pos hrc] at h
        cases htr : tryAlts net fs (destDir folder title subtitle)
            (primaryFilename resp.contentDisposition url) (altCandidates url) with
        | mk f1 o1 =>
          rw [htr] at h
          cases o1 with
          | none =>
            have hr := Option.some.inj h
            refine ⟨⟨primaryDest url folder title subtitle resp, [], [url]⟩, ?_, ?_, rfl⟩
            · rw [downloadFile_some url folder title subtitle net
            (applyWrites fs r.writes) resp hn, downloadBody]
              rw [if_pos ?_]
              have hw : r.writes
                  = [(primaryDest url folder title subtitle resp, resp.body)] := by
                rw [← hr]
              rw [hw]
              simp [applyWrites]
            · rw [← hr]
          | some o =>
            have hr := Option.some.inj h
            have hw : r.writes = o.writes := by rw [← hr]
            have hp : r.path = o.path := by rw [← hr]
            rcases tryAlts_shape net fs (destDir folder title subtitle)
                (primaryFilename resp.contentDisposition url) (altCandidates url)
                f1 o htr with ⟨hwe, hex⟩ | ⟨bd, hwb, hex⟩
            · -- the alternate path already existed: no write happened
              have hfs2 : applyWrites fs r.writes o.path = true := by
                rw [hw, hwe]
                simp [applyWrites, hex]
              have hfs2d : applyWrites fs r.writes
                  (primaryDest url folder title subtitle resp) = false := by
                rw [hw, hwe]
                simpa [applyWrites] using hdf
              refine ⟨⟨o.path, [], url :: f1⟩, ?_, ?_, rfl⟩
              · rw [downloadFile_some url folder title subtitle net
            (applyWrites fs r.writes) resp hn, downloadBody]
                rw [if_neg (by simp [hfs2d]), if_pos hrc]
                rw [tryAlts_stable net fs (applyWrites fs r.writes) _ _ _ f1 o htr hfs2]
              · rw [hp]
            · -- the alternate path was written by the first call
              by_cases hpd : o.path = primaryDest url folder title subtitle resp
              · have hfs2 : applyWrites fs r.writes
                    (primaryDest url folder title subtitle resp) = true := by
                  rw [hw, hwb, ← hpd]
                  simp [applyWrites]
                refine ⟨⟨primaryDest url folder title subtitle resp, [], [url]⟩, ?_, ?_, rfl⟩
                · rw [downloadFile_some url folder title subtitle net
                      (applyWrites fs r.writes) resp hn, downloadBody,
                    if_pos (by simp [hfs2])]
                · rw [hp, hpd]
              · have hfs2 : applyWrites fs r.writes o.path = true := by
                  rw [hw, hwb]
                  simp [applyWrites]
                have hfs2d : applyWrites fs r.writes
                    (primaryDest url folder title subtitle resp) = false := by
                  rw [hw, hwb]
                  simp [applyWrites, hdf]
                  intro hcon
                  exact hpd hcon
                refine ⟨⟨o.path, [], url :: f1⟩, ?_, ?_, rfl⟩
                · rw [downloadFile_some url folder title subtitle net
            (applyWrites fs r.writes) resp hn, downloadBody]
                  rw [if_neg (by simp [hfs2d]), if_pos hrc]
                  rw [tryAlts_stable net fs (applyWrites fs r.writes) _ _ _ f1 o htr hfs2]
                · rw [hp]
      · rw [if_neg hrc] at h
        have hr := Option.some.inj h
        refine ⟨⟨primaryDest url folder title subtitle resp, [], [url]⟩, ?_, ?_, rfl⟩
        · rw [downloadFile_some url folder title subtitle net
            (applyWrites fs r.writes) resp hn, downloadBody]
          rw [if_pos ?_]
          have hw : r.writes = [(primaryDest url folder title subtitle resp, resp.body)] := by
            rw [← hr]
          rw [hw]
          simp [applyWrites]
        · rw [← hr]

/-- Witness: a first call that wrote the file, re-run on the updated
filesystem. -/
theorem download_second_call_same_path_witness :
    ∃ r2 : DlResult,
      downloadFile "https://h/x/f.pdf" "dl" none none
        (fun u => if u == "https://h/x/f.pdf"
          then some ⟨none, some "application/pdf", [37, 80, 68, 70]⟩ else none)
        (applyWrites (fun _ => false)
          (⟨"dl/f.pdf", [("dl/f.pdf", [37, 80, 68, 70])], ["https://h/x/f.pdf"]⟩ : DlResult).writes)
        = some r2
      ∧ r2.path = (⟨"dl/f.pdf", [("dl/f.pdf", [37, 80, 68, 70])], ["https://h/x/f.pdf"]⟩ : DlResult).path
      ∧ r2.writes = [] :=
  download_second_call_same_path "https://h/x/f.pdf" "dl" none none
    (fun u => if u == "https://h/x/f.pdf"
      then some ⟨none, some "application/pdf", [37, 80, 68, 70]⟩ else none)
    (fun _ => false)
    ⟨"dl/f.pdf", [("dl/f.pdf", [37, 80, 68, 70])], ["https://h/x/f.pdf"]⟩
    (by decide)

/-! ## Claim C10: sanitization never touches the filename -/

/-- Is p of the form dir/name with no further slash in name? -/
def isDirectChildB (dir p : String) : Bool :=
  startsWithS p (dir ++ "/") && !containsS (String.mk (p.data.drop (dir ++ "/").data.length)) "/"

/-- The path of a successful retry outcome is the base directory
joined with the alternate's filename (its Content-Disposition capture,
or the primary filename), for some fetched candidate. -/
lemma tryAlts_path_shape (net : String → Option Response) (fs : String → Bool)
    (b fn : String) :
    ∀ (cs : List String) (f : List String) (o : AltOut),
      tryAlts net fs b fn cs = (f, some o) →
      ∃ (a : String) (r2 : Response), a ∈ cs ∧ net a = some r2
        ∧ o.path = osJoin b (pyOrS (filenameFromCd r2.contentDisposition) fn) := by
  intro cs
  induction cs with
  | nil =>
    intro f o h
    rw [tryAlts] at h
    exact Option.noConfusion (congrArg Prod.snd h)
  | cons alt rest ih =>
    intro f o h
    cases hA : net alt with
    | none =>
      rw [tryAlts_cons_err net fs b fn alt rest hA] at h
      cases htr : tryAlts net fs b fn rest with
      | mk f1 o1 =>
        rw [htr] at h
        have ho : o1 = some o := congrArg Prod.snd h
        subst ho
        rcases ih f1 o htr with ⟨a, r2, hmem, ha, hp⟩
        exact ⟨a, r2, List.mem_cons_of_mem alt hmem, ha, hp⟩
    | some r2 =>
      by_cases hs : looksLikePdf r2.body r2.contentType = true
      · rw [tryAlts_cons_pass net fs b fn alt rest r2 hA hs] at h
        have ho : altOutcome fs b fn r2 = o := Option.some.inj (congrArg Prod.snd h)
        refine ⟨alt, r2, List.mem_cons_self alt rest, hA, ?_⟩
        rw [← ho, altOutcome_path]
      · have hsf : looksLikePdf r2.body r2.contentType = false := by simpa using hs
        rw [tryAlts_cons_sniffFail net fs b fn alt rest r2 hA hsf] at h
        cases htr : tryAlts net fs b fn rest with
        | mk f1 o1 =>
          rw [htr] at h
          have ho : o1 = some o := congrArg Prod.snd h
          subst ho
          rcases ih f1 o htr with ⟨a, r2b, hmem, ha, hp⟩
          exact ⟨a, r2b, List.mem_cons_of_mem alt hmem, ha, hp⟩

/-- C10: download_file sanitizes only the title and subtitle directory
components, never the filename: every returned path is os.path.join of
the sanitized base directory and a raw filename (the primary filename
from Content-Disposition / URL basename, or on the retry path the
alternate's Content-Disposition filename falling back to the primary
one).  The second half shows a concrete response whose
Content-Disposition filename contains a path separator: the returned
path is not a direct child of the destination directory, and differs
from what sanitizing the filename would have produced. -/
theorem download_path_raw_filename :
    (∀ (url folder : String) (title subtitle : Option String)
        (net : String → Option Response) (fs : String → Bool) (r : DlResult),
        downloadFile url folder title subtitle net fs = some r →
        ∃ (resp : Response) (fn : String), net url = some resp
          ∧ r.path = osJoin (destDir folder title subtitle) fn
          ∧ (fn = primaryFilename resp.contentDisposition url
             ∨ ∃ (a : String) (r2 : Response), a ∈ altCandidates url ∧ net a = some r2
                 ∧ fn = pyOrS (filenameFromCd r2.contentDisposition)
                     (primaryFilename resp.contentDisposition url)))
    ∧ (downloadFile "https://h.gov.pl/files/x" "legal_acts" (some "T") none
          (fun u => if u == "https://h.gov.pl/files/x"
            then some ⟨some "attachment; filename=\"sub/dir.pdf\"", some "application/pdf",
              [37, 80, 68, 70]⟩ else none)
          (fun _ => false)
        = some ⟨"legal_acts/T/sub/dir.pdf",
            [("legal_acts/T/sub/dir.pdf", [37, 80, 68, 70])], ["https://h.gov.pl/files/x"]⟩
       ∧ destDir "legal_acts" (some "T") none = "legal_acts/T"
       ∧ safeDirname "sub/dir.pdf" = "sub_dir.pdf"
       ∧ isDirectChildB "legal_acts/T" "legal_acts/T/sub/dir.pdf" = false) := by
  constructor
  · intro url folder title subtitle net fs r h
    cases hn : net url with
    | none =>
      rw [downloadFile_none url folder title subtitle net fs hn] at h
      exact Option.noConfusion h
    | some resp =>
      rw [downloadFile_some url folder title subtitle net fs resp hn, downloadBody] at h
      by_cases hd : fs (primaryDest url folder title subtitle resp) = true
      · rw [if_pos hd] at h
        have hr := Option.some.inj h
        exact ⟨resp, primaryFilename resp.contentDisposition url, rfl,
          by rw [← hr]; rfl, Or.inl rfl⟩
      · rw [if_neg hd] at h
        by_cases hrc : retryCond resp url = true
        · rw [if_pos hrc] at h
          cases htr : tryAlts net fs (destDir folder title subtitle)
              (primaryFilename resp.contentDisposition url) (altCandidates url) with
          | mk f1 o1 =>
            rw [htr] at h
            cases o1 with
            | none =>
              have hr := Option.some.inj h
              exact ⟨resp, primaryFilename resp.contentDisposition url, rfl,
                by rw [← hr]; rfl, Or.inl rfl⟩
            | some o =>
              have hr := Option.some.inj h
              rcases tryAlts_path_shape net fs (destDir folder title subtitle)
                  (primaryFilename resp.contentDisposition url) (altCandidates url)
                  f1 o htr with ⟨a, r2, hmem, ha, hp⟩
              refine ⟨resp, pyOrS (filenameFromCd r2.contentDisposition)
                  (primaryFilename resp.contentDisposition url), rfl, ?_,
                Or.inr ⟨a, r2, hmem, ha, rfl⟩⟩
              rw [← hr]
              exact hp
        · rw [if_neg hrc] at h
          have hr := Option.some.inj h
          exact ⟨resp, primaryFilename resp.contentDisposition url, rfl,
            by rw [← hr]; rfl, Or.inl rfl⟩
  · exact ⟨by decide, by decide, by decide, by decide⟩

/-- Witness: the general statement applied at the response carrying a
slash in its Content-Disposition filename. -/
theorem download_path_raw_filename_witness :
    ∃ (resp : Response) (fn : String),
      (fun u => if u == "https://h.gov.pl/files/x"
        then some (⟨some "attachment; filename=\"sub/dir.pdf\"", some "application/pdf",
          [37, 80, 68, 70]⟩ : Response) else none) "https://h.gov.pl/files/x" = some resp
      ∧ (⟨"legal_acts/T/sub/dir.pdf",
          [("legal_acts/T/sub/dir.pdf", [37, 80, 68, 70])],
          ["https://h.gov.pl/files/x"]⟩ : DlResult).path
        = osJoin (destDir "legal_acts" (some "T") none) fn
      ∧ (fn = primaryFilename resp.contentDisposition "https://h.gov.pl/files/x"
         ∨ ∃ (a : String) (r2 : Response),
             a ∈ altCandidates "https://h.gov.pl/files/x"
             ∧ (fun u => if u == "https://h.gov.pl/files/x"
                 then some (⟨some "attachment; filename=\"sub/dir.pdf\"",
                   some "application/pdf", [37, 80, 68, 70]⟩ : Response) else none) a = some r2
             ∧ fn = pyOrS (filenameFromCd r2.contentDisposition)
                 (primaryFilename resp.contentDisposition "https://h.gov.pl/files/x")) :=
  download_path_raw_filename.1 "https://h.gov.pl/files/x" "legal_acts" (some "T") none
    (fun u => if u == "https://h.gov.pl/files/x"
      then some ⟨some "attachment; filename=\"sub/dir.pdf\"", some "application/pdf",
        [37, 80, 68, 70]⟩ else none)
    (fun _ => false)
    ⟨"legal_acts/T/sub/dir.pdf", [("legal_acts/T/sub/dir.pdf", [37, 80, 68, 70])],
      ["https://h.gov.pl/files/x"]⟩
    (by decide)

end ActsDl
